import Mathlib

/-!
Shallow embedding of `apache-mod-status-parser` (src/parser.rs, src/data.rs).

Rust machine integers are modelled as `Int`/`Nat` with explicit range checks
mirroring the overflow checks of `str::parse`.  Rust `f32` values are modelled
by `F32` below: parsing follows the decimal grammar of `f32::from_str` and the
value of a finite literal is kept as the exact rational it denotes (IEEE
rounding and overflow-to-infinity are not modelled; no property proved here
observes a float value other than zero).
-/

namespace ModStatus

/-- Error type of src/parser.rs (`WorkerScoreParseError`).  The payloads of the
underlying `std` integer/float conversion errors are not observable in the
program, so the two transparent wrapper variants carry no payload. -/
inductive WorkerScoreParseError where
  | InvalidHeaders
  | InvalidCellCount (raw : String)
  | StatusCodeMustBeChar (s : String)
  | InvalidStatusCode (c : Char)
  | AccessCountsInvalidFieldCount (s : String)
  | SrvFieldUnknownFormat (s : String)
  | ParseFloatError
  | ParseIntError
  deriving DecidableEq, Repr

/-- Worker status enumeration of src/data.rs (`WorkerStatus`). -/
inductive WorkerStatus where
  | Dead
  | Starting
  | Ready
  | BusyRead
  | BusyWrite
  | BusyKeepAlive
  | BusyLog
  | BusyDns
  | Closing
  | Graceful
  | IdleKill
  deriving DecidableEq, Repr

/-- Access counters of src/data.rs (`AccessCounts`); the Rust fields are `u32`,
so the parser only ever stores values below `2^32`. -/
structure AccessCounts where
  connection : Nat
  child : Nat
  slot : Nat
  deriving DecidableEq, Repr

/-- Model of a Rust `f32` as produced by `str::parse::<f32>`: a NaN, a signed
infinity, or a finite value kept as the exact rational denoted by the decimal
literal. -/
inductive F32 where
  | nan
  | inf (neg : Bool)
  | finite (q : ℚ)
  deriving DecidableEq, Repr

/-- Worker record of src/data.rs (`WorkerScore`). -/
structure WorkerScore where
  pid : Option Int
  generation : Int
  status : WorkerStatus
  access_counts : AccessCounts
  conn_kib : F32
  child_mib : F32
  slot_mib : F32
  request_time_ms : Nat
  seconds_since_s : Nat
  cpu : F32
  request : String
  vhost : String
  protocol : String
  duration_ms : Nat
  client : String
  deriving DecidableEq, Repr

/-! ## Models of the Rust standard-library string-to-number conversions -/

/-- Value of a run of ASCII decimal digits; `none` as soon as a non-digit is
met. -/
def decDigitsAux : Nat → List Char → Option Nat
  | acc, [] => some acc
  | acc, c :: cs =>
    if c.isDigit then decDigitsAux (10 * acc + (c.toNat - 48)) cs else none

/-- Value of a non-empty all-digit character list, `none` otherwise. -/
def decDigits? (cs : List Char) : Option Nat :=
  match cs with
  | [] => none
  | _ :: _ => decDigitsAux 0 cs

/-- Model of Rust `str::parse::<i32>`: optional `+`/`-` sign, at least one
ASCII digit, value within the `i32` range. -/
def rustParseI32 (s : String) : Option Int :=
  let signed : Int × List Char :=
    match s.toList with
    | '+' :: r => (1, r)
    | '-' :: r => (-1, r)
    | r => (1, r)
  match decDigits? signed.2 with
  | none => none
  | some n =>
    let v : Int := signed.1 * n
    if -(2 ^ 31) ≤ v ∧ v < 2 ^ 31 then some v else none

/-- Model of Rust `str::parse::<u32>`: optional `+` sign (a `-` is rejected
outright for unsigned targets), at least one ASCII digit, value below
`2^32`. -/
def rustParseU32 (s : String) : Option Nat :=
  let rest : List Char :=
    match s.toList with
    | '+' :: r => r
    | r => r
  match decDigits? rest with
  | none => none
  | some n => if n < 2 ^ 32 then some n else none

/-- Strip an optional leading sign; returns (negative?, rest). -/
def stripSign : List Char → Bool × List Char
  | '+' :: r => (false, r)
  | '-' :: r => (true, r)
  | r => (false, r)

/-- Value of a digit list read in base 10 (digits assumed). -/
def digitsVal (cs : List Char) : Nat :=
  cs.foldl (fun a c => 10 * a + (c.toNat - 48)) 0

/-- Model of Rust `str::parse::<f32>` following the grammar of
`f32::from_str`: optional sign, then `inf`/`infinity`/`nan` (ASCII
case-insensitive) or a decimal number `Digit+ | Digit+ . Digit* | . Digit+`
with an optional exponent `e|E Sign? Digit+`.  The finite value is the exact
rational denoted by the literal. -/
def rustParseF32 (s : String) : Option F32 :=
  let sgn := stripSign s.toList
  let neg := sgn.1
  let cs := sgn.2
  let low := cs.map Char.toLower
  if low = "inf".toList ∨ low = "infinity".toList then some (.inf neg)
  else if low = "nan".toList then some .nan
  else
    let ip := cs.takeWhile Char.isDigit
    let r1 := cs.dropWhile Char.isDigit
    let fpr : Option (List Char) × List Char :=
      match r1 with
      | '.' :: r => (some (r.takeWhile Char.isDigit), r.dropWhile Char.isDigit)
      | r => (none, r)
    let fp := fpr.1
    let r2 := fpr.2
    if ip = [] ∧ (fp = none ∨ fp = some []) then none
    else
      let mant : ℚ :=
        (digitsVal ip : ℚ) +
          (match fp with
           | none => 0
           | some f => (digitsVal f : ℚ) / (10 ^ f.length))
      let signedVal : ℚ → F32 := fun q => .finite (if neg then -q else q)
      match r2 with
      | [] => some (signedVal mant)
      | e :: r =>
        if e = 'e' ∨ e = 'E' then
          let esgn := stripSign r
          let ed := esgn.2.takeWhile Char.isDigit
          let rest := esgn.2.dropWhile Char.isDigit
          if ed = [] ∨ rest ≠ [] then none
          else
            let ex : Int := if esgn.1 then -(digitsVal ed : Int) else (digitsVal ed : Int)
            some (signedVal (mant * (10 : ℚ) ^ ex))
        else none

/-- Split a character list at every occurrence of `sep`; the pieces between
separators are kept, empty pieces included, so the result always has one more
piece than there are separators. -/
def splitChar (sep : Char) : List Char → List (List Char)
  | [] => [[]]
  | c :: rest =>
    let r := splitChar sep rest
    if c = sep then
      [] :: r
    else
      match r with
      | [] => [[c]]
      | h :: t => (c :: h) :: t

/-- Model of Rust `str::split(sep: char)` collected into a vector: the
substrings between occurrences of `sep`, in order, empty substrings kept. -/
def rustSplit (sep : Char) (s : String) : List String :=
  (splitChar sep s.toList).map String.mk

/-- Model of Rust `str::trim`: drop whitespace characters from both ends
(whitespace as in `Char.isWhitespace`: space, tab, carriage return, line
feed — the characters the status page can actually contain). -/
def rustTrim (s : String) : String :=
  String.mk (((s.toList.dropWhile Char.isWhitespace).reverse.dropWhile
    Char.isWhitespace).reverse)

/-- Lift an integer conversion into the parser's error type, as the Rust
`#[from] ParseIntError` conversion applied by `?` does. -/
def liftInt (o : Option Int) : Except WorkerScoreParseError Int :=
  match o with
  | some v => .ok v
  | none => .error .ParseIntError

/-- Lift an unsigned conversion into the parser's error type. -/
def liftU32 (o : Option Nat) : Except WorkerScoreParseError Nat :=
  match o with
  | some v => .ok v
  | none => .error .ParseIntError

/-- Lift a float conversion into the parser's error type, as the Rust
`#[from] ParseFloatError` conversion applied by `?` does. -/
def liftF32 (o : Option F32) : Except WorkerScoreParseError F32 :=
  match o with
  | some v => .ok v
  | none => .error .ParseFloatError

/-! ## The field sub-parsers of src/parser.rs -/

/-- `parse_srv` (src/parser.rs:129): split on `-`, demand exactly two parts,
parse each as `i32`; returns (child server number, generation). -/
def parse_srv (s : String) : Except WorkerScoreParseError (Int × Int) :=
  let splitted := rustSplit '-' s
  if 2 ≠ splitted.length then
    .error (.SrvFieldUnknownFormat s)
  else do
    let a ← liftInt (rustParseI32 (splitted.getD 0 ""))
    let b ← liftInt (rustParseI32 (splitted.getD 1 ""))
    return (a, b)

/-- `parse_pid` (src/parser.rs:141): the literal `-` means a dead process
(`none`); anything else is parsed as `i32`. -/
def parse_pid (s : String) : Except WorkerScoreParseError (Option Int) :=
  match s with
  | "-" => .ok none
  | text => (liftInt (rustParseI32 text)).map some

/-- `parse_worker_status` (src/parser.rs:152).  Rust's `s.len()` is the UTF-8
byte length, so the one-character check is a one-byte check; a string passing
it consists of exactly one ASCII character, which is then matched against the
eleven status codes. -/
def parse_worker_status (s : String) : Except WorkerScoreParseError WorkerStatus :=
  if 1 ≠ s.utf8ByteSize then
    .error (.StatusCodeMustBeChar s)
  else
    match s.toList with
    | [code] =>
      match code with
      | '_' => .ok .Ready
      | 'S' => .ok .Starting
      | 'R' => .ok .BusyRead
      | 'W' => .ok .BusyWrite
      | 'K' => .ok .BusyKeepAlive
      | 'L' => .ok .BusyLog
      | 'D' => .ok .BusyDns
      | 'C' => .ok .Closing
      | '.' => .ok .Dead
      | 'G' => .ok .Graceful
      | 'I' => .ok .IdleKill
      | _ => .error (.InvalidStatusCode code)
    | _ => .error (.StatusCodeMustBeChar s)

/-- `parse_acc` (src/parser.rs:176): split on `/`, demand exactly three parts,
parse each as `u32`. -/
def parse_acc (s : String) : Except WorkerScoreParseError AccessCounts :=
  let parts := rustSplit '/' s
  if parts.length ≠ 3 then
    .error (.AccessCountsInvalidFieldCount s)
  else do
    let connection ← liftU32 (rustParseU32 (parts.getD 0 ""))
    let child ← liftU32 (rustParseU32 (parts.getD 1 ""))
    let slot ← liftU32 (rustParseU32 (parts.getD 2 ""))
    return { connection := connection, child := child, slot := slot }

/-! ## Rows and the row decoder -/

/-- A table row as the row decoder observes it: the `text()` of each child
node of the `tr` element (in order, text-node children included, exactly what
`row.children()` yields), plus the row's raw markup (`row.html()`), used only
for diagnostics. -/
structure RowNode where
  cells : List String
  html : String
  deriving DecidableEq, Repr

/-- The canonical column names (`VALID_HEADERS`, src/parser.rs:67). -/
def VALID_HEADERS : List String :=
  ["Srv", "PID", "Acc", "M", "CPU", "SS", "Req", "Dur", "Conn", "Child",
   "Slot", "Client", "Protocol", "VHost", "Request"]

/-- `validate_headers` (src/parser.rs:66): zip the row's cells with the
reference names and demand that every paired cell's trimmed text equals the
expected name; cells or names without a partner are not inspected. -/
def validate_headers (row : RowNode) : Except WorkerScoreParseError Unit :=
  let result := (row.cells.zip VALID_HEADERS).all fun p => rustTrim p.1 == p.2
  match result with
  | true => .ok ()
  | false => .error .InvalidHeaders

/-- The field extraction of `parse_row` after cell-count normalization
(src/parser.rs:107): sub-parsers applied at the fixed 15-cell offsets, in the
evaluation order of the Rust struct literal.  `parse_row` only calls this
with exactly 15 columns, so the `getD` defaults are never used. -/
def decode15 (cols : List String) : Except WorkerScoreParseError WorkerScore := do
  let srv ← parse_srv (cols.getD 0 "")
  let pid ← parse_pid (cols.getD 1 "")
  let access_counts ← parse_acc (cols.getD 2 "")
  let status ← parse_worker_status (cols.getD 3 "")
  let cpu ← liftF32 (rustParseF32 (cols.getD 4 ""))
  let seconds_since_s ← liftU32 (rustParseU32 (cols.getD 5 ""))
  let request_time_ms ← liftU32 (rustParseU32 (cols.getD 6 ""))
  let duration_ms ← liftU32 (rustParseU32 (cols.getD 7 ""))
  let conn_kib ← liftF32 (rustParseF32 (cols.getD 8 ""))
  let child_mib ← liftF32 (rustParseF32 (cols.getD 9 ""))
  let slot_mib ← liftF32 (rustParseF32 (cols.getD 10 ""))
  return { generation := srv.2, pid := pid, access_counts := access_counts,
           status := status, cpu := cpu, seconds_since_s := seconds_since_s,
           request_time_ms := request_time_ms, duration_ms := duration_ms,
           conn_kib := conn_kib, child_mib := child_mib, slot_mib := slot_mib,
           client := cols.getD 11 "", protocol := cols.getD 12 "",
           vhost := cols.getD 13 "", request := cols.getD 14 "" }

/-- `parse_row` (src/parser.rs:95): trim every cell's text, force the column
count to 15 (a 14-cell row gets the placeholder `"0"` inserted at index 4 in
place of the optional CPU column; any other count is `InvalidCellCount`
carrying the row's markup), then extract the fields. -/
def parse_row (row : RowNode) : Except WorkerScoreParseError WorkerScore :=
  let cols := row.cells.map fun td => rustTrim td
  match row.cells.length with
  | 15 => decode15 cols
  | 14 => decode15 (cols.insertIdx 4 "0")
  | _ => .error (.InvalidCellCount row.html)

/-! ## The document model and the table locator -/

/-- A node of the parsed HTML document tree: an element with its tag name,
attributes and children, or a text node. -/
inductive HtmlNode where
  | elem (name : String) (attrs : List (String × String)) (children : List HtmlNode)
  | text (s : String)

mutual

/-- Concatenated text of a node's subtree (`select`'s `Node::text()`). -/
def nodeText : HtmlNode → String
  | .text s => s
  | .elem _ _ cs => nodeTextList cs

/-- Concatenated text of a forest, in document order. -/
def nodeTextList : List HtmlNode → String
  | [] => ""
  | n :: ns => nodeText n ++ nodeTextList ns

end

/-- Attribute list serialized back to markup. -/
def attrsHtml (attrs : List (String × String)) : String :=
  attrs.foldl (fun acc a => acc ++ " " ++ a.1 ++ "=\x22" ++ a.2 ++ "\x22") ""

mutual

/-- Markup of a node (`select`'s `Node::html()`), serialized from the tree. -/
def nodeHtml : HtmlNode → String
  | .text s => s
  | .elem name attrs cs =>
      "<" ++ name ++ attrsHtml attrs ++ ">" ++ nodeHtmlList cs ++ "</" ++ name ++ ">"

/-- Markup of a forest, in document order. -/
def nodeHtmlList : List HtmlNode → String
  | [] => ""
  | n :: ns => nodeHtml n ++ nodeHtmlList ns

end

/-- Child nodes of a node (`Node::children()`; a text node has none). -/
def nodeChildren : HtmlNode → List HtmlNode
  | .text _ => []
  | .elem _ _ cs => cs

/-- Does a node match `And(Name("table"), Attr("border", "0"))`?  `Attr`
demands the attribute be present with exactly that value (first occurrence
decides, as in the parsed attribute map). -/
def isTableBorder0 : HtmlNode → Bool
  | .elem name attrs _ => name == "table" && attrs.lookup "border" == some "0"
  | .text _ => false

/-- Does a node match `Name("tr")`? -/
def isTr : HtmlNode → Bool
  | .elem name _ _ => name == "tr"
  | .text _ => false

mutual

/-- Nodes of a subtree matched by
`Descendant(And(Name("table"), Attr("border", "0")), Name("tr"))`, in
document (preorder) order, as `document.find` yields them; `anc` records
whether some strict ancestor is a border-0 table. -/
def collectTrs (anc : Bool) : HtmlNode → List HtmlNode
  | .text _ => []
  | .elem name attrs cs =>
      (if anc && name == "tr" then [HtmlNode.elem name attrs cs] else []) ++
        collectTrsList (anc || isTableBorder0 (.elem name attrs cs)) cs

/-- `collectTrs` over a forest, concatenated in document order. -/
def collectTrsList (anc : Bool) : List HtmlNode → List HtmlNode
  | [] => []
  | n :: ns => collectTrs anc n ++ collectTrsList anc ns

end

mutual

/-- Is some node of the subtree (the root included) a `tr` element? -/
def subtreeHasTr : HtmlNode → Bool
  | .text _ => false
  | .elem name _ cs => name == "tr" || subtreeHasTrList cs

/-- `subtreeHasTr` over a forest. -/
def subtreeHasTrList : List HtmlNode → Bool
  | [] => false
  | n :: ns => subtreeHasTr n || subtreeHasTrList ns

end

mutual

/-- Is some node of the subtree a border-0 `table` element having a `tr`
element among its proper descendants?  This is the structural reading of
"some `tr` is a descendant of a `table` with `border=\x220\x22`". -/
def docHasLocatedTr : HtmlNode → Bool
  | .text _ => false
  | .elem name attrs cs =>
      (isTableBorder0 (.elem name attrs cs) && subtreeHasTrList cs) ||
        docHasLocatedTrList cs

/-- `docHasLocatedTr` over a forest. -/
def docHasLocatedTrList : List HtmlNode → Bool
  | [] => false
  | n :: ns => docHasLocatedTr n || docHasLocatedTrList ns

end

/-- View a located `tr` node as the row the decoder consumes. -/
def rowOfNode (n : HtmlNode) : RowNode :=
  { cells := (nodeChildren n).map nodeText, html := nodeHtml n }

/-- Observable outcome of `parse_worker_scores`: the returned vector, the
returned error (header path, propagated by `?`), or termination of the whole
process via `std::process::exit` (bad data-row path, src/parser.rs:54). -/
inductive ParseOutcome where
  | ok (scores : List WorkerScore)
  | err (e : WorkerScoreParseError)
  | exited (code : Nat)
  deriving DecidableEq, Repr

/-- The data-row loop of `parse_worker_scores` (src/parser.rs:48): decode each
remaining row, pushing successes onto `scores`; on the first failure the code
prints the error and the row's markup and calls `std::process::exit(1)`. -/
def scoresLoop : List HtmlNode → List WorkerScore → ParseOutcome
  | [], acc => .ok acc
  | r :: rs, acc =>
    match parse_row (rowOfNode r) with
    | .ok score => scoresLoop rs (acc ++ [score])
    | .error _ => .exited 1

/-- `parse_worker_scores` (src/parser.rs:35): locate the `tr` rows under a
border-0 table, treat row 0 as the header (propagating its validation error
with `?`), then run the data-row loop over the remaining rows. -/
def parse_worker_scores (document : List HtmlNode) : ParseOutcome :=
  match collectTrsList false document with
  | [] => .ok []
  | header :: rest =>
    match validate_headers (rowOfNode header) with
    | .error e => .err e
    | .ok _ => scoresLoop rest []

/-- Specification-side helper: fail-fast decoding of a sequence of data rows,
yielding the full decoded sequence or the first row error as a value.  This is
the reference against which the loop of `parse_worker_scores` is compared. -/
def decodeRows (rows : List HtmlNode) :
    Except WorkerScoreParseError (List WorkerScore) :=
  rows.mapM fun r => parse_row (rowOfNode r)

/-! ## Concrete documents used in closed statements -/

/-- A `td` element holding one text node. -/
def tdOf (s : String) : HtmlNode := .elem "td" [] [.text s]

/-- A header row whose cells are exactly the fifteen canonical names. -/
def headerTr : HtmlNode := .elem "tr" [] (VALID_HEADERS.map tdOf)

/-- A malformed data row: a single cell, hence an invalid cell count. -/
def badRowTr : HtmlNode := .elem "tr" [] [tdOf "x"]

/-- A border-0 table with a valid header row and one malformed data row. -/
def exitDoc : List HtmlNode :=
  [.elem "table" [("border", "0")] [headerTr, badRowTr]]

/-- Cell texts of a well-formed 14-cell data row (CPU column absent). -/
def row14cells : List String :=
  ["0-1", "1234", "10/5/2", "_", "12", "34", "56", "7", "8", "9",
   "client", "proto", "vhost", "req"]

/-- A document with `tr` elements and border-0 tables, but no `tr` under a
border-0 table: the locator yields nothing. -/
def noTrDoc : List HtmlNode :=
  [.elem "table" [] [.elem "tr" [] []],
   .elem "table" [("border", "0")] [.elem "td" [] [.text "x"]]]

end ModStatus

deriving instance DecidableEq for Except

namespace ModStatus

example : parse_srv "3-7" = .ok (3, 7) := by decide
example : parse_srv "3-7-1" = .error (.SrvFieldUnknownFormat "3-7-1") := by decide
example : parse_srv "37" = .error (.SrvFieldUnknownFormat "37") := by decide
example : parse_pid "-" = .ok none := by decide
example : parse_pid "1234" = .ok (some 1234) := by decide
example : parse_pid "abc" = .error .ParseIntError := by decide
example : parse_worker_status "_" = .ok .Ready := by decide
example : parse_worker_status "WW" = .error (.StatusCodeMustBeChar "WW") := by decide
example : parse_worker_status "Z" = .error (.InvalidStatusCode 'Z') := by decide
example : parse_acc "10/5/2" = .ok ⟨10, 5, 2⟩ := by decide
example : parse_acc "10/5" = .error (.AccessCountsInvalidFieldCount "10/5") := by decide
example : rustParseF32 "0" = some (.finite 0) := by
  have h : rustParseF32 "0" = some (.finite (((0 : Nat) : ℚ) + 0)) := rfl
  rw [h]
  norm_num
example : rustParseF32 "x" = none := by rfl
example : parse_worker_scores exitDoc = .exited 1 := by decide
example : parse_worker_scores [] = .ok [] := by decide
example : parse_worker_scores [.elem "table" [("border", "0")] [.elem "tr" [] [tdOf "bad"]]] = .err .InvalidHeaders := by decide

/-! ## Generic helpers about `Except` -/

theorem except_bind_ok {ε α β : Type} (x : Except ε α) (f : α → Except ε β) (b : β) :
    x >>= f = .ok b ↔ ∃ a, x = .ok a ∧ f a = .ok b := by
  cases x <;> simp [Bind.bind, Except.bind]

theorem except_bind_error {ε α β : Type} (x : Except ε α) (f : α → Except ε β) (e : ε) :
    x >>= f = .error e ↔ x = .error e ∨ ∃ a, x = .ok a ∧ f a = .error e := by
  cases x <;> simp [Bind.bind, Except.bind]

/-! ## Header validation -/

/-- Characterization of `validate_headers`: acceptance is exactly the pairwise
match of the trimmed cell texts against the canonical names, over the
positions where both a cell and a reference name exist. -/
theorem validate_headers_ok_iff (row : RowNode) :
    validate_headers row = .ok () ↔
      ∀ i, i < row.cells.length → i < VALID_HEADERS.length →
        rustTrim (row.cells.getD i "") = VALID_HEADERS.getD i "" := by
  have hmain : validate_headers row = .ok () ↔
      ((row.cells.zip VALID_HEADERS).all fun p => rustTrim p.1 == p.2) = true := by
    unfold validate_headers
    cases h : (row.cells.zip VALID_HEADERS).all fun p => rustTrim p.1 == p.2 <;>
      simp [h]
  rw [hmain, List.all_eq_true]
  constructor
  · intro h i h1 h2
    have hz : (row.cells.getD i "", VALID_HEADERS.getD i "") ∈
        row.cells.zip VALID_HEADERS := by
      rw [List.mem_iff_getElem]
      refine ⟨i, by rw [List.length_zip]; exact lt_min h1 h2, ?_⟩
      rw [List.getElem_zip, @List.getD_eq_getElem _ _ "" _ h1,
        @List.getD_eq_getElem _ _ "" _ h2]
    simpa using h _ hz
  · intro h p hp
    rw [List.mem_iff_getElem] at hp
    obtain ⟨i, hi, rfl⟩ := hp
    have hi' := hi
    rw [List.length_zip] at hi'
    have h1 : i < row.cells.length := lt_of_lt_of_le hi' (min_le_left _ _)
    have h2 : i < VALID_HEADERS.length := lt_of_lt_of_le hi' (min_le_right _ _)
    rw [List.getElem_zip]
    simp only [beq_iff_eq]
    rw [← @List.getD_eq_getElem _ _ "" _ h1, ← @List.getD_eq_getElem _ _ "" _ h2]
    exact h i h1 h2

/-- The only error `validate_headers` can produce is `InvalidHeaders`. -/
theorem validate_headers_ok_or_invalid (row : RowNode) :
    validate_headers row = .ok () ∨ validate_headers row = .error .InvalidHeaders := by
  unfold validate_headers
  cases (row.cells.zip VALID_HEADERS).all fun p => rustTrim p.1 == p.2 <;> simp

/-- C2: `validate_headers` accepts a row exactly when, at every position where
both a cell and a reference name exist, the trimmed cell text equals the
canonical name; on any mismatch at a checked position it returns
`InvalidHeaders`.  A row with fewer than 15 cells passes whenever the cells
present match the corresponding prefix of the canonical names. -/
theorem claim_validate_headers_pairwise (row : RowNode) :
    (validate_headers row = .ok () ↔
      ∀ i, i < row.cells.length → i < VALID_HEADERS.length →
        rustTrim (row.cells.getD i "") = VALID_HEADERS.getD i "") ∧
    ((¬ ∀ i, i < row.cells.length → i < VALID_HEADERS.length →
        rustTrim (row.cells.getD i "") = VALID_HEADERS.getD i "") →
      validate_headers row = .error .InvalidHeaders) := by
  refine ⟨validate_headers_ok_iff row, fun hm => ?_⟩
  rcases validate_headers_ok_or_invalid row with h | h
  · exact absurd ((validate_headers_ok_iff row).mp h) hm
  · exact h

/-- Witness for C2: a truncated three-cell header whose cells match the first
three canonical names is accepted; changing one checked cell is rejected. -/
theorem claim_validate_headers_pairwise_witness :
    validate_headers ⟨["Srv", " PID ", "Acc"], ""⟩ = .ok () ∧
    validate_headers ⟨["Srv", "PID", "Nope"], ""⟩ = .error .InvalidHeaders := by
  constructor
  · exact (claim_validate_headers_pairwise ⟨["Srv", " PID ", "Acc"], ""⟩).1.mpr
      (by decide)
  · exact (claim_validate_headers_pairwise ⟨["Srv", "PID", "Nope"], ""⟩).2
      (by decide)

/-- C9: the zip in `validate_headers` never inspects cells beyond the shorter
sequence: a row with zero cells is accepted (never `InvalidHeaders`), and a
row with 15 or more cells is accepted whenever its first fifteen trimmed
cells match the canonical names. -/
theorem claim_validate_headers_quirk :
    (∀ row : RowNode, row.cells = [] → validate_headers row = .ok ()) ∧
    (∀ row : RowNode, 15 ≤ row.cells.length →
      (∀ i, i < 15 →
        rustTrim (row.cells.getD i "") = VALID_HEADERS.getD i "") →
      validate_headers row = .ok ()) := by
  constructor
  · intro row h
    rw [validate_headers_ok_iff]
    intro i h1 _
    rw [h] at h1
    exact absurd h1 (by simp)
  · intro row _ h
    rw [validate_headers_ok_iff]
    intro i _ h2
    exact h i h2

/-- Witness for C9: the empty header row and a sixteen-cell header row whose
first fifteen cells are canonical are both accepted. -/
theorem claim_validate_headers_quirk_witness :
    validate_headers ⟨[], "x"⟩ = .ok () ∧
    validate_headers ⟨VALID_HEADERS ++ ["Extra"], ""⟩ = .ok () := by
  constructor
  · exact claim_validate_headers_quirk.1 ⟨[], "x"⟩ (by decide)
  · exact claim_validate_headers_quirk.2 ⟨VALID_HEADERS ++ ["Extra"], ""⟩
      (by decide) (by decide)


/-! ## Error shapes of the field sub-parsers -/

theorem liftInt_eq_error {o : Option Int} {e : WorkerScoreParseError}
    (h : liftInt o = .error e) : e = .ParseIntError := by
  cases o <;> simp_all [liftInt]

theorem liftU32_eq_error {o : Option Nat} {e : WorkerScoreParseError}
    (h : liftU32 o = .error e) : e = .ParseIntError := by
  cases o <;> simp_all [liftU32]

theorem liftF32_eq_error {o : Option F32} {e : WorkerScoreParseError}
    (h : liftF32 o = .error e) : e = .ParseFloatError := by
  cases o <;> simp_all [liftF32]

theorem parse_srv_error_cases {s : String} {e : WorkerScoreParseError}
    (h : parse_srv s = .error e) :
    e = .SrvFieldUnknownFormat s ∨ e = .ParseIntError := by
  simp only [parse_srv] at h
  split at h
  · injection h with h
    exact Or.inl h.symm
  · rw [except_bind_error] at h
    rcases h with h | ⟨a, _, h⟩
    · exact Or.inr (liftInt_eq_error h)
    · rw [except_bind_error] at h
      rcases h with h | ⟨b, _, h⟩
      · exact Or.inr (liftInt_eq_error h)
      · simp [pure, Except.pure] at h

theorem parse_pid_error_cases {s : String} {e : WorkerScoreParseError}
    (h : parse_pid s = .error e) : e = .ParseIntError := by
  unfold parse_pid at h
  split at h
  · simp at h
  · rcases ho : rustParseI32 s with _ | v <;> rw [ho] at h <;>
      simp [liftInt, Except.map] at h
    exact h.symm

theorem parse_worker_status_error_cases {s : String} {e : WorkerScoreParseError}
    (h : parse_worker_status s = .error e) :
    (∃ t, e = .StatusCodeMustBeChar t) ∨ ∃ c, e = .InvalidStatusCode c := by
  unfold parse_worker_status at h
  split at h
  · injection h with h
    exact Or.inl ⟨s, h.symm⟩
  · split at h
    · split at h
      all_goals first
        | exact Except.noConfusion h
        | (injection h with h; exact Or.inr ⟨_, h.symm⟩)
    · injection h with h
      exact Or.inl ⟨s, h.symm⟩

theorem parse_acc_error_cases {s : String} {e : WorkerScoreParseError}
    (h : parse_acc s = .error e) :
    e = .AccessCountsInvalidFieldCount s ∨ e = .ParseIntError := by
  simp only [parse_acc] at h
  split at h
  · injection h with h
    exact Or.inl h.symm
  · rw [except_bind_error] at h
    rcases h with h | ⟨a, _, h⟩
    · exact Or.inr (liftU32_eq_error h)
    · rw [except_bind_error] at h
      rcases h with h | ⟨b, _, h⟩
      · exact Or.inr (liftU32_eq_error h)
      · rw [except_bind_error] at h
        rcases h with h | ⟨c, _, h⟩
        · exact Or.inr (liftU32_eq_error h)
        · simp [pure, Except.pure] at h

/-! ## The bind chain of `decode15` -/

theorem decode15_not_cellcount (cols : List String) (raw : String) :
    decode15 cols ≠ .error (.InvalidCellCount raw) := by
  intro h
  unfold decode15 at h
  rw [except_bind_error] at h
  rcases h with h | ⟨srv, _, h⟩
  · rcases parse_srv_error_cases h with h | h <;> simp at h
  rw [except_bind_error] at h
  rcases h with h | ⟨pid, _, h⟩
  · simpa using parse_pid_error_cases h
  rw [except_bind_error] at h
  rcases h with h | ⟨acc, _, h⟩
  · rcases parse_acc_error_cases h with h | h <;> simp at h
  rw [except_bind_error] at h
  rcases h with h | ⟨st, _, h⟩
  · rcases parse_worker_status_error_cases h with ⟨t, h⟩ | ⟨c, h⟩ <;> simp at h
  rw [except_bind_error] at h
  rcases h with h | ⟨cpu, _, h⟩
  · simpa using liftF32_eq_error h
  rw [except_bind_error] at h
  rcases h with h | ⟨ss, _, h⟩
  · simpa using liftU32_eq_error h
  rw [except_bind_error] at h
  rcases h with h | ⟨req, _, h⟩
  · simpa using liftU32_eq_error h
  rw [except_bind_error] at h
  rcases h with h | ⟨dur, _, h⟩
  · simpa using liftU32_eq_error h
  rw [except_bind_error] at h
  rcases h with h | ⟨conn, _, h⟩
  · simpa using liftF32_eq_error h
  rw [except_bind_error] at h
  rcases h with h | ⟨child, _, h⟩
  · simpa using liftF32_eq_error h
  rw [except_bind_error] at h
  rcases h with h | ⟨slot, _, h⟩
  · simpa using liftF32_eq_error h
  simp [pure, Except.pure] at h

theorem decode15_ok_generation {cols : List String} {ws : WorkerScore}
    (h : decode15 cols = .ok ws) :
    ∃ p, parse_srv (cols.getD 0 "") = .ok p ∧ ws.generation = p.2 := by
  unfold decode15 at h
  rw [except_bind_ok] at h
  obtain ⟨srv, hsrv, h⟩ := h
  rw [except_bind_ok] at h
  obtain ⟨pid, _, h⟩ := h
  rw [except_bind_ok] at h
  obtain ⟨acc, _, h⟩ := h
  rw [except_bind_ok] at h
  obtain ⟨st, _, h⟩ := h
  rw [except_bind_ok] at h
  obtain ⟨cpu, _, h⟩ := h
  rw [except_bind_ok] at h
  obtain ⟨ss, _, h⟩ := h
  rw [except_bind_ok] at h
  obtain ⟨req, _, h⟩ := h
  rw [except_bind_ok] at h
  obtain ⟨dur, _, h⟩ := h
  rw [except_bind_ok] at h
  obtain ⟨conn, _, h⟩ := h
  rw [except_bind_ok] at h
  obtain ⟨child, _, h⟩ := h
  rw [except_bind_ok] at h
  obtain ⟨slot, _, h⟩ := h
  simp only [pure, Except.pure, Except.ok.injEq] at h
  subst h
  exact ⟨srv, hsrv, rfl⟩

theorem decode15_ok_cpu {cols : List String} {ws : WorkerScore}
    (h : decode15 cols = .ok ws) :
    liftF32 (rustParseF32 (cols.getD 4 "")) = .ok ws.cpu := by
  unfold decode15 at h
  rw [except_bind_ok] at h
  obtain ⟨srv, _, h⟩ := h
  rw [except_bind_ok] at h
  obtain ⟨pid, _, h⟩ := h
  rw [except_bind_ok] at h
  obtain ⟨acc, _, h⟩ := h
  rw [except_bind_ok] at h
  obtain ⟨st, _, h⟩ := h
  rw [except_bind_ok] at h
  obtain ⟨cpu, hcpu, h⟩ := h
  rw [except_bind_ok] at h
  obtain ⟨ss, _, h⟩ := h
  rw [except_bind_ok] at h
  obtain ⟨req, _, h⟩ := h
  rw [except_bind_ok] at h
  obtain ⟨dur, _, h⟩ := h
  rw [except_bind_ok] at h
  obtain ⟨conn, _, h⟩ := h
  rw [except_bind_ok] at h
  obtain ⟨child, _, h⟩ := h
  rw [except_bind_ok] at h
  obtain ⟨slot, _, h⟩ := h
  simp only [pure, Except.pure, Except.ok.injEq] at h
  subst h
  exact hcpu


/-! ## Cell-count discipline of `parse_row` -/

/-- C3: a row whose cell count is neither 14 nor 15 fails with
`InvalidCellCount` carrying the row's raw markup (the cell contents are never
consulted, so no sub-parser error can surface); conversely a 14- or 15-cell
row never produces `InvalidCellCount`. -/
theorem claim_parse_row_cell_count (row : RowNode) :
    (row.cells.length ≠ 14 → row.cells.length ≠ 15 →
      parse_row row = .error (.InvalidCellCount row.html)) ∧
    (row.cells.length = 14 ∨ row.cells.length = 15 →
      ∀ s, parse_row row ≠ .error (.InvalidCellCount s)) := by
  constructor
  · intro h14 h15
    unfold parse_row
    split
    · simp_all
    · simp_all
    · rfl
  · intro hor s
    unfold parse_row
    split
    · exact decode15_not_cellcount _ s
    · exact decode15_not_cellcount _ s
    · simp_all

/-- Witness for C3: a one-cell row is rejected with `InvalidCellCount` and its
markup; a 14-cell row of empty cells fails, but never with
`InvalidCellCount`. -/
theorem claim_parse_row_cell_count_witness :
    parse_row ⟨["x"], "<tr><td>x</td></tr>"⟩ =
      .error (.InvalidCellCount "<tr><td>x</td></tr>") ∧
    parse_row ⟨List.replicate 14 "", "h"⟩ ≠ .error (.InvalidCellCount "h") := by
  constructor
  · exact (claim_parse_row_cell_count ⟨["x"], "<tr><td>x</td></tr>"⟩).1
      (by decide) (by decide)
  · exact (claim_parse_row_cell_count ⟨List.replicate 14 "", "h"⟩).2
      (Or.inl (by decide)) "h"

/-! ## The 14-cell case of `parse_row` -/

theorem map_insertIdx_comm {α β : Type} (f : α → β) (a : α) (n : Nat)
    (l : List α) : (l.insertIdx n a).map f = (l.map f).insertIdx n (f a) := by
  induction n generalizing l with
  | zero => simp [List.insertIdx_zero]
  | succ n ih =>
    cases l with
    | nil => simp [List.insertIdx_succ_nil]
    | cons x xs => simp [List.insertIdx_succ_cons, ih]

theorem rustParseF32_zero : rustParseF32 "0" = some (.finite 0) := by
  have h : rustParseF32 "0" = some (.finite (((0 : Nat) : ℚ) + 0)) := rfl
  rw [h]
  norm_num

/-- C4: a 14-cell row decodes exactly as the 15-cell row obtained by inserting
the cell text `"0"` at index 4 (the CPU position), and a successful decode of
a 14-cell row always carries `cpu = 0`. -/
theorem claim_parse_row_14_cells (row : RowNode) (h : row.cells.length = 14) :
    parse_row row = parse_row ⟨row.cells.insertIdx 4 "0", row.html⟩ ∧
    ∀ ws, parse_row row = .ok ws → ws.cpu = .finite 0 := by
  have htrim0 : rustTrim "0" = "0" := rfl
  have hlen15 : (row.cells.insertIdx 4 "0").length = 15 := by
    rw [List.length_insertIdx 4 row.cells (by omega), h]
  have hmain : parse_row row =
      decode15 ((row.cells.map fun td => rustTrim td).insertIdx 4 "0") := by
    unfold parse_row
    rw [h]
  have hins : parse_row ⟨row.cells.insertIdx 4 "0", row.html⟩ =
      decode15 ((row.cells.map fun td => rustTrim td).insertIdx 4 "0") := by
    unfold parse_row
    rw [hlen15]
    rw [map_insertIdx_comm, htrim0]
  constructor
  · rw [hmain, hins]
  · intro ws hws
    rw [hmain] at hws
    have hcpu := decode15_ok_cpu hws
    have hlm : (row.cells.map fun td => rustTrim td).length = 14 := by
      rw [List.length_map, h]
    have hle : (4 : Nat) ≤ (row.cells.map fun td => rustTrim td).length := by omega
    have hlen' : ((row.cells.map fun td => rustTrim td).insertIdx 4 "0").length = 15 := by
      rw [List.length_insertIdx 4 _ hle, hlm]
    have hget :
        ((row.cells.map fun td => rustTrim td).insertIdx 4 "0").getD 4 "" = "0" := by
      rw [@List.getD_eq_getElem _ _ "" 4 (by rw [hlen']; omega)]
      exact List.getElem_insertIdx_self _ _ _ hle
    rw [hget, rustParseF32_zero] at hcpu
    simp only [liftF32, Except.ok.injEq] at hcpu
    exact hcpu.symm

/-- Witness for C4: a concrete 14-cell row (CPU column absent) decodes to the
same result as its 15-cell completion, and its decode succeeds with
`cpu = 0`. -/
theorem claim_parse_row_14_cells_witness :
    (parse_row ⟨row14cells, ""⟩ = parse_row ⟨row14cells.insertIdx 4 "0", ""⟩) ∧
    ∀ ws, parse_row ⟨row14cells, ""⟩ = .ok ws → ws.cpu = .finite 0 := by
  exact ⟨(claim_parse_row_14_cells ⟨row14cells, ""⟩ (by decide)).1,
    (claim_parse_row_14_cells ⟨row14cells, ""⟩ (by decide)).2⟩


/-! ## The orchestration and its exit path -/

theorem scoresLoop_eq (rs : List HtmlNode) (acc : List WorkerScore) :
    scoresLoop rs acc =
      match decodeRows rs with
      | .ok l => .ok (acc ++ l)
      | .error _ => .exited 1 := by
  induction rs generalizing acc with
  | nil =>
    have h : decodeRows ([] : List HtmlNode) = .ok [] := rfl
    rw [h]
    simp [scoresLoop]
  | cons r rs ih =>
    have hcons : decodeRows (r :: rs) =
        parse_row (rowOfNode r) >>= fun b =>
          decodeRows rs >>= fun bs => pure (b :: bs) := by
      simp only [decodeRows, List.mapM_cons]
    have hstep : scoresLoop (r :: rs) acc =
        match parse_row (rowOfNode r) with
        | .ok score => scoresLoop rs (acc ++ [score])
        | .error _ => .exited 1 := rfl
    cases h : parse_row (rowOfNode r) with
    | ok score =>
      rw [show scoresLoop (r :: rs) acc = scoresLoop rs (acc ++ [score]) from by
        rw [hstep, h]]
      rw [ih, hcons, h]
      cases h2 : decodeRows rs with
      | ok l => simp [Bind.bind, Except.bind, pure, Except.pure]
      | error e => simp [Bind.bind, Except.bind]
    | error e =>
      rw [show scoresLoop (r :: rs) acc = .exited 1 from by rw [hstep, h]]
      rw [hcons, h]
      simp [Bind.bind, Except.bind]

/-- C1 (amended): outcome characterization of `parse_worker_scores`.  With no
located row it returns the empty sequence; with an invalid header row it
returns that error as a value without decoding any data row; with a valid
header it returns the complete decoded sequence when every data row decodes;
and when some data row fails it does NOT return that row's error: it
terminates the process with exit status 1 (src/parser.rs:51-55). -/
theorem claim_parse_worker_scores_outcomes (doc : List HtmlNode) :
    (collectTrsList false doc = [] ∧ parse_worker_scores doc = .ok []) ∨
    (∃ header rest e, collectTrsList false doc = header :: rest ∧
      validate_headers (rowOfNode header) = .error e ∧
      parse_worker_scores doc = .err e) ∨
    (∃ header rest scores, collectTrsList false doc = header :: rest ∧
      validate_headers (rowOfNode header) = .ok () ∧
      decodeRows rest = .ok scores ∧
      parse_worker_scores doc = .ok scores) ∨
    (∃ header rest e, collectTrsList false doc = header :: rest ∧
      validate_headers (rowOfNode header) = .ok () ∧
      decodeRows rest = .error e ∧
      parse_worker_scores doc = .exited 1) := by
  cases hrows : collectTrsList false doc with
  | nil => exact Or.inl ⟨rfl, by unfold parse_worker_scores; rw [hrows]⟩
  | cons header rest =>
    have hres : parse_worker_scores doc =
        match validate_headers (rowOfNode header) with
        | .error e => .err e
        | .ok _ => scoresLoop rest [] := by
      unfold parse_worker_scores
      rw [hrows]
    have hloop := scoresLoop_eq rest []
    cases hv : validate_headers (rowOfNode header) with
    | error e =>
      refine Or.inr (Or.inl ⟨header, rest, e, rfl, hv, ?_⟩)
      rw [hres, hv]
    | ok u =>
      cases u
      cases hd : decodeRows rest with
      | ok scores =>
        refine Or.inr (Or.inr (Or.inl ⟨header, rest, scores, rfl, hv, hd, ?_⟩))
        rw [hres, hv, hloop, hd]
        simp
      | error e =>
        refine Or.inr (Or.inr (Or.inr ⟨header, rest, e, rfl, hv, hd, ?_⟩))
        rw [hres, hv, hloop, hd]

/-- C1, counterexample to the claim as stated: in `exitDoc` the single data
row fails to decode with `InvalidCellCount`, yet `parse_worker_scores` does
not return that error (nor any value at all): it terminates the process with
exit status 1. -/
theorem claim_parse_worker_scores_exit_cex :
    parse_row (rowOfNode badRowTr) =
      .error (.InvalidCellCount (nodeHtml badRowTr)) ∧
    parse_worker_scores exitDoc = .exited 1 ∧
    (∀ e, (ParseOutcome.exited 1) ≠ .err e) ∧
    (∀ scores, (ParseOutcome.exited 1) ≠ .ok scores) := by
  refine ⟨by decide, by decide, fun e h => ?_, fun scores h => ?_⟩ <;>
    exact ParseOutcome.noConfusion h

/-! ## Documents in which the locator finds nothing -/

mutual

theorem collectTrs_nil_of_no_tr (n : HtmlNode) (h : subtreeHasTr n = false) :
    collectTrs true n = [] := by
  cases n with
  | text s => rfl
  | elem name attrs cs =>
    unfold subtreeHasTr at h
    rw [Bool.or_eq_false_iff] at h
    unfold collectTrs
    rw [Bool.true_and, h.1, Bool.true_or]
    rw [collectTrsList_nil_of_no_tr cs h.2]
    rfl

theorem collectTrsList_nil_of_no_tr (ns : List HtmlNode)
    (h : subtreeHasTrList ns = false) : collectTrsList true ns = [] := by
  cases ns with
  | nil => rfl
  | cons n ns =>
    unfold subtreeHasTrList at h
    rw [Bool.or_eq_false_iff] at h
    unfold collectTrsList
    rw [collectTrs_nil_of_no_tr n h.1, collectTrsList_nil_of_no_tr ns h.2]
    rfl

end

mutual

theorem collectTrs_nil_of_not_located (n : HtmlNode)
    (h : docHasLocatedTr n = false) : collectTrs false n = [] := by
  cases n with
  | text s => rfl
  | elem name attrs cs =>
    unfold docHasLocatedTr at h
    rw [Bool.or_eq_false_iff] at h
    unfold collectTrs
    rw [Bool.false_and, if_neg (by simp), Bool.false_or]
    cases hb : isTableBorder0 (.elem name attrs cs) with
    | true =>
      have hsub : subtreeHasTrList cs = false := by
        have h1 := h.1
        rw [hb, Bool.true_and] at h1
        exact h1
      rw [List.nil_append]
      exact collectTrsList_nil_of_no_tr cs hsub
    | false =>
      rw [List.nil_append]
      exact collectTrsList_nil_of_not_located cs h.2

theorem collectTrsList_nil_of_not_located (ns : List HtmlNode)
    (h : docHasLocatedTrList ns = false) : collectTrsList false ns = [] := by
  cases ns with
  | nil => rfl
  | cons n ns =>
    unfold docHasLocatedTrList at h
    rw [Bool.or_eq_false_iff] at h
    unfold collectTrsList
    rw [collectTrs_nil_of_not_located n h.1,
      collectTrsList_nil_of_not_located ns h.2]
    rfl

end

/-- C10: when no `tr` element sits below a border-0 `table` element, the
located row sequence is empty, so `parse_worker_scores` returns `Ok` with the
empty sequence: no header validation and no error is possible. -/
theorem claim_no_located_tr_ok_empty (doc : List HtmlNode)
    (h : docHasLocatedTrList doc = false) :
    parse_worker_scores doc = .ok [] := by
  unfold parse_worker_scores
  rw [collectTrsList_nil_of_not_located doc h]

/-- Witness for C10: a document holding a `tr` outside any border-0 table and
a border-0 table without any `tr` yields the empty record sequence. -/
theorem claim_no_located_tr_ok_empty_witness :
    docHasLocatedTrList noTrDoc = false ∧ parse_worker_scores noTrDoc = .ok [] := by
  exact ⟨by decide, claim_no_located_tr_ok_empty noTrDoc (by decide)⟩


/-! ## Positions of cells seen by the sub-parsers -/

theorem getD_map_trim (l : List String) (i : Nat) (h : i < l.length) :
    (l.map fun td => rustTrim td).getD i "" = rustTrim (l.getD i "") := by
  rw [@List.getD_eq_getElem _ (l.map fun td => rustTrim td) "" i
      (by simpa using h),
    List.getElem_map, @List.getD_eq_getElem _ l "" i h]

/-- Whichever branch `parse_row` takes, a successful decode draws its
generation from `parse_srv` on the trimmed first cell (index 0 is below the
insertion point 4, so the 14-cell normalization does not move it). -/
theorem parse_row_ok_generation {row : RowNode} {ws : WorkerScore}
    (h : parse_row row = .ok ws) :
    ∃ p, parse_srv (rustTrim (row.cells.getD 0 "")) = .ok p ∧
      ws.generation = p.2 := by
  unfold parse_row at h
  split at h
  · next h15 =>
    obtain ⟨p, hp, hg⟩ := decode15_ok_generation h
    rw [getD_map_trim row.cells 0 (by omega)] at hp
    exact ⟨p, hp, hg⟩
  · next h14 =>
    obtain ⟨p, hp, hg⟩ := decode15_ok_generation h
    have hlm : (row.cells.map fun td => rustTrim td).length = 14 := by
      rw [List.length_map, h14]
    have h0 : ((row.cells.map fun td => rustTrim td).insertIdx 4 "0").getD 0 ""
        = (row.cells.map fun td => rustTrim td).getD 0 "" := by
      have hlen' :
          ((row.cells.map fun td => rustTrim td).insertIdx 4 "0").length = 15 := by
        rw [List.length_insertIdx 4 _ (by omega), hlm]
      rw [@List.getD_eq_getElem _ _ "" 0 (by rw [hlen']; omega),
        List.getElem_insertIdx_of_lt _ _ _ _ (by omega) (by omega),
        @List.getD_eq_getElem _ _ "" 0 (by omega)]
    rw [h0, getD_map_trim row.cells 0 (by omega)] at hp
    exact ⟨p, hp, hg⟩
  · exact Except.noConfusion h

/-! ## The Srv sub-parser -/

/-- C5: `parse_srv` succeeds exactly when the input splits on `-` into two
parts that both parse as integers, returning (child number, generation); any
other part count is `SrvFieldUnknownFormat`, a bad part is an integer parse
error; the decoder keeps only the generation (second component). -/
theorem claim_parse_srv_spec :
    (∀ s : String, (rustSplit '-' s).length ≠ 2 →
      parse_srv s = .error (.SrvFieldUnknownFormat s)) ∧
    (∀ s a b, rustSplit '-' s = [a, b] →
      parse_srv s =
        match rustParseI32 a, rustParseI32 b with
        | some x, some y => .ok (x, y)
        | none, _ => .error .ParseIntError
        | some _, none => .error .ParseIntError) ∧
    (∀ (row : RowNode) (ws : WorkerScore), parse_row row = .ok ws →
      ∃ p, parse_srv (rustTrim (row.cells.getD 0 "")) = .ok p ∧
        ws.generation = p.2) ∧
    parse_srv "3-7" = .ok (3, 7) ∧
    parse_srv "3-7-1" = .error (.SrvFieldUnknownFormat "3-7-1") ∧
    parse_srv "37" = .error (.SrvFieldUnknownFormat "37") ∧
    parse_srv "3-x" = .error .ParseIntError := by
  refine ⟨?_, ?_, fun row ws h => parse_row_ok_generation h,
    by decide, by decide, by decide, by decide⟩
  · intro s h
    simp only [parse_srv]
    rw [if_pos (Ne.symm h)]
  · intro s a b h
    simp only [parse_srv, h]
    rw [if_neg (by simp)]
    cases ha : rustParseI32 a <;> cases hb : rustParseI32 b <;>
      simp [ha, hb, liftInt, List.getD, Bind.bind, Except.bind, pure,
        Except.pure]

/-- Witness for C5: concrete applications of each quantified component. -/
theorem claim_parse_srv_spec_witness :
    parse_srv "5-11-2" = .error (.SrvFieldUnknownFormat "5-11-2") ∧
    parse_srv "10-2" = .ok (10, 2) ∧
    ∃ ws p, parse_row ⟨row14cells, ""⟩ = .ok ws ∧
      parse_srv (rustTrim (row14cells.getD 0 "")) = .ok p ∧
      ws.generation = p.2 := by
  refine ⟨claim_parse_srv_spec.1 "5-11-2" (by decide), ?_, ?_⟩
  · rw [claim_parse_srv_spec.2.1 "10-2" "10" "2" (by decide)]
    rfl
  · obtain ⟨p, hp, hg⟩ :=
      claim_parse_srv_spec.2.2.1 ⟨row14cells, ""⟩ _ rfl
    exact ⟨_, p, rfl, hp, hg⟩

/-! ## The PID sub-parser -/

/-- C6: `parse_pid` returns `none` exactly on the literal `-`; any other
string parses as an integer or fails with an integer parse error, never
yielding `none`. -/
theorem claim_parse_pid_spec :
    (∀ s : String, parse_pid s = .ok none ↔ s = "-") ∧
    (∀ s : String, s ≠ "-" →
      parse_pid s =
        match rustParseI32 s with
        | some v => .ok (some v)
        | none => .error .ParseIntError) ∧
    parse_pid "-" = .ok none ∧
    parse_pid "1234" = .ok (some 1234) ∧
    parse_pid "abc" = .error .ParseIntError := by
  have hof : ∀ s : String, s ≠ "-" →
      parse_pid s = (liftInt (rustParseI32 s)).map some := by
    intro s h
    unfold parse_pid
    split
    · simp_all
    · rfl
  refine ⟨?_, ?_, by decide, by decide, by decide⟩
  · intro s
    by_cases hs : s = "-"
    · subst hs
      have h0 : parse_pid "-" = .ok none := by decide
      simp [h0]
    · rw [hof s hs]
      cases ho : rustParseI32 s <;> simp [liftInt, Except.map, hs]
  · intro s h
    rw [hof s h]
    cases ho : rustParseI32 s <;> simp [liftInt, Except.map]

/-- Witness for C6: both quantified components applied at concrete strings. -/
theorem claim_parse_pid_spec_witness :
    (parse_pid "7" = .ok none ↔ "7" = "-") ∧ parse_pid "7" = .ok (some 7) := by
  constructor
  · exact claim_parse_pid_spec.1 "7"
  · rw [claim_parse_pid_spec.2.1 "7" (by decide)]
    rfl

/-! ## The status sub-parser -/

/-- C7: `parse_worker_status` rejects any string whose length is not 1 with
`StatusCodeMustBeChar` (Rust's `str::len` is the UTF-8 byte length, modelled
by `utf8ByteSize`), maps the eleven recognized single-character codes to their
statuses, and rejects any other single (one-byte) character with
`InvalidStatusCode` carrying that character. -/
theorem claim_parse_worker_status_spec :
    (∀ s : String, s.utf8ByteSize ≠ 1 →
      parse_worker_status s = .error (.StatusCodeMustBeChar s)) ∧
    parse_worker_status "_" = .ok .Ready ∧
    parse_worker_status "S" = .ok .Starting ∧
    parse_worker_status "R" = .ok .BusyRead ∧
    parse_worker_status "W" = .ok .BusyWrite ∧
    parse_worker_status "K" = .ok .BusyKeepAlive ∧
    parse_worker_status "L" = .ok .BusyLog ∧
    parse_worker_status "D" = .ok .BusyDns ∧
    parse_worker_status "C" = .ok .Closing ∧
    parse_worker_status "." = .ok .Dead ∧
    parse_worker_status "G" = .ok .Graceful ∧
    parse_worker_status "I" = .ok .IdleKill ∧
    (∀ c : Char, (String.mk [c]).utf8ByteSize = 1 →
      c ∉ (['_', 'S', 'R', 'W', 'K', 'L', 'D', 'C', '.', 'G', 'I'] : List Char) →
      parse_worker_status (String.mk [c]) = .error (.InvalidStatusCode c)) := by
  refine ⟨?_, by decide, by decide, by decide, by decide, by decide, by decide,
    by decide, by decide, by decide, by decide, by decide, ?_⟩
  · intro s h
    unfold parse_worker_status
    rw [if_pos (Ne.symm h)]
  · intro c h1 h2
    unfold parse_worker_status
    rw [if_neg (by simp [h1])]
    simp only [String.toList]
    split <;> simp_all

/-- Witness for C7: the two quantified components at concrete inputs. -/
theorem claim_parse_worker_status_spec_witness :
    parse_worker_status "WW" = .error (.StatusCodeMustBeChar "WW") ∧
    parse_worker_status "Z" = .error (.InvalidStatusCode 'Z') := by
  constructor
  · exact claim_parse_worker_status_spec.1 "WW" (by decide)
  · exact claim_parse_worker_status_spec.2.2.2.2.2.2.2.2.2.2.2.2 'Z'
      (by decide) (by decide)

/-! ## The Acc sub-parser -/

/-- C8: `parse_acc` succeeds exactly when the input splits on `/` into three
parts that all parse as unsigned integers, yielding the connection, child and
slot counters in that order; any other part count fails with
`AccessCountsInvalidFieldCount` carrying the input. -/
theorem claim_parse_acc_spec :
    (∀ s : String, (rustSplit '/' s).length ≠ 3 →
      parse_acc s = .error (.AccessCountsInvalidFieldCount s)) ∧
    (∀ s a b c, rustSplit '/' s = [a, b, c] →
      parse_acc s =
        match rustParseU32 a, rustParseU32 b, rustParseU32 c with
        | some x, some y, some z => .ok { connection := x, child := y, slot := z }
        | none, _, _ => .error .ParseIntError
        | some _, none, _ => .error .ParseIntError
        | some _, some _, none => .error .ParseIntError) ∧
    parse_acc "10/5/2" = .ok { connection := 10, child := 5, slot := 2 } ∧
    parse_acc "10/5" = .error (.AccessCountsInvalidFieldCount "10/5") := by
  refine ⟨?_, ?_, by decide, by decide⟩
  · intro s h
    simp only [parse_acc]
    rw [if_pos h]
  · intro s a b c h
    simp only [parse_acc, h]
    rw [if_neg (by simp)]
    cases ha : rustParseU32 a <;> cases hb : rustParseU32 b <;>
      cases hc : rustParseU32 c <;>
      simp [ha, hb, hc, liftU32, List.getD, Bind.bind, Except.bind, pure,
        Except.pure]

/-- Witness for C8: both quantified components at concrete inputs. -/
theorem claim_parse_acc_spec_witness :
    parse_acc "1/2/3/4" = .error (.AccessCountsInvalidFieldCount "1/2/3/4") ∧
    parse_acc "4/5/6" = .ok { connection := 4, child := 5, slot := 6 } := by
  constructor
  · exact claim_parse_acc_spec.1 "1/2/3/4" (by decide)
  · rw [claim_parse_acc_spec.2.1 "4/5/6" "4" "5" "6" (by decide)]
    rfl

end ModStatus
